import Mathlib

/-!
Verification of the podman_deploy reconciliation logic (src/src/main.rs).

The program drives an external container runtime by shelling out; here the
runtime is modelled as a pure oracle (`Env`) answering existence / image /
success queries, and every function that would shell out instead records the
call it makes in a trace (`List RCall`) and reads its outcome from the oracle.
Filesystem side effects of path materialization are modelled by an explicit
filesystem state (`FS`).
-/

namespace PodmanDeploy

/-- Container configuration structure (struct `Container` in main.rs).
`env_vars` is a `HashMap` in the source; it is modelled as an association
list, fixing one iteration order. -/
structure Container where
  name : String
  image : String
  mounts : List String
  env_vars : List (String × String)
  ports : List String
  deriving DecidableEq, Repr

/-- Pod configuration structure (struct `Pod` in main.rs). -/
structure Pod where
  name : String
  containers : List Container
  deriving DecidableEq, Repr

/-- Main application configuration structure (struct `Config` in main.rs). -/
structure Config where
  application_name : String
  is_podman_installed : Bool
  data_path : String
  pods : List Pod
  private_registry : Option String
  registry_username : Option String
  registry_password : Option String
  deriving DecidableEq, Repr

/-- One invocation of the external runtime CLI, as recorded in a trace. -/
inductive RCall where
  | podExistsQ (name : String)
  | containerExistsQ (name : String)
  | inspectImage (name : String)
  | pullImage (image : String)
  | stopContainer (name : String)
  | removeContainer (name : String)
  | createPod (name : String) (ports : Finset String)
  | createContainer (podName : String) (args : List String)
  | startPod (name : String)
  deriving DecidableEq

/-- The error values the embedded functions can return (the source uses
boxed error strings; each distinct formatted message becomes a constructor). -/
inductive AppError where
  | containerNotFound (name : String)
  | podNotFound (name : String)
  | pullFailed (image : String)
  | stopFailed (name : String)
  | removeFailed (name : String)
  | createPodFailed (name : String)
  | createContainerFailed (podName name : String)
  | startPodFailed (name : String)
  deriving DecidableEq, Repr

/-- Oracle for the observed state of the runtime and the outcome of each
mutating CLI call.  A call does not change the oracle: the claims under
verification only quantify over a single observation of each fact. -/
structure Env where
  podExists : String → Bool
  containerExists : String → Bool
  currentImage : String → Option String
  pullOk : String → Bool
  stopContainerOk : String → Bool
  removeOk : String → Bool
  createPodOk : String → Bool
  createContainerOk : String → String → Bool
  startPodOk : String → Bool

/-- Result of an embedded runtime-touching function: the trace of CLI calls
it made, and its `Result` value. -/
abbrev RunResult (α : Type) := List RCall × Except AppError α

/-- Rust `str::split_once(':')` on the character list: split at the first
colon, `none` when there is no colon. -/
def splitOnceAux : List Char → Option (List Char × List Char)
  | [] => none
  | ch :: rest =>
    if ch = ':' then some ([], rest)
    else
      match splitOnceAux rest with
      | none => none
      | some (a, b) => some (ch :: a, b)

/-- `mount.split_once(':')` from main.rs. -/
def splitOnce (s : String) : Option (String × String) :=
  match splitOnceAux s.data with
  | none => none
  | some (a, b) => some (⟨a⟩, ⟨b⟩)

/-- `str::ends_with` on the character lists of the two strings. -/
def strEndsWith (s suffix : String) : Bool :=
  List.isSuffixOf suffix.data s.data

/-- The `is_file` classification in `create_mount_paths` (main.rs:220-223):
`local_path.contains('.')` and `local_path.ends_with` one of the six
extensions. -/
def isFileMount (localPath : String) : Bool :=
  localPath.data.contains '.' &&
    (strEndsWith localPath ".conf" || strEndsWith localPath ".log" ||
     strEndsWith localPath ".txt" || strEndsWith localPath ".json" ||
     strEndsWith localPath ".yaml" || strEndsWith localPath ".yml")

/-- The host path materialized for a mount spec:
`format!("{}{}", config.data_path, local_path)` in `create_mount_paths`
(main.rs:215), `none` when the spec has no colon (the mount is skipped). -/
def materializedPath (dataPath m : String) : Option String :=
  match splitOnce m with
  | some (localPath, _) => some (dataPath ++ localPath)
  | none => none

/-- The `-v` argument built for a mount spec in `create_container_in_pod`
(main.rs:454-463): `dataPath ++ host ++ ":" ++ container` when the spec has a
colon, the spec verbatim otherwise. -/
def mountArg (dataPath m : String) : String :=
  match splitOnce m with
  | some (hostPath, containerPath) => dataPath ++ hostPath ++ ":" ++ containerPath
  | none => m

/-- The argument list of the `podman run` call built by
`create_container_in_pod` / `generate_container_command`. -/
def container_run_args (podName : String) (c : Container) (dataPath : String) :
    List String :=
  ["run", "-d", "--pod", podName, "--name", c.name]
    ++ (c.env_vars.map (fun kv => ["-e", kv.1 ++ "=" ++ kv.2])).flatten
    ++ (c.mounts.map (fun m => ["-v", mountArg dataPath m])).flatten
    ++ [c.image]

/-- The set of ports collected by `create_pod` / `generate_pod_command`:
every container's ports inserted into one `HashSet` (main.rs:399-405). -/
def pod_ports (pod : Pod) : Finset String :=
  pod.containers.foldl (fun s c => c.ports.foldl (fun s2 p => insert p s2) s) ∅

/-- `pull_image` (main.rs:675-688). -/
def pull_image (env : Env) (image : String) : RunResult Unit :=
  ([RCall.pullImage image],
   if env.pullOk image then Except.ok () else Except.error (AppError.pullFailed image))

/-- `stop_container` (main.rs:645-658). -/
def stop_container (env : Env) (name : String) : RunResult Unit :=
  ([RCall.stopContainer name],
   if env.stopContainerOk name then Except.ok ()
   else Except.error (AppError.stopFailed name))

/-- `remove_container` (main.rs:660-673). -/
def remove_container (env : Env) (name : String) : RunResult Unit :=
  ([RCall.removeContainer name],
   if env.removeOk name then Except.ok ()
   else Except.error (AppError.removeFailed name))

/-- `create_container_in_pod` (main.rs:436-481). -/
def create_container_in_pod (env : Env) (podName : String) (c : Container)
    (dataPath : String) : RunResult Unit :=
  ([RCall.createContainer podName (container_run_args podName c dataPath)],
   if env.createContainerOk podName c.name then Except.ok ()
   else Except.error (AppError.createContainerFailed podName c.name))

/-- `needs_upgrade` (main.rs:620-643): false when the container does not
exist; otherwise compare the inspected image to the configured one, treating
a failed inspection as "upgrade needed". -/
def needs_upgrade (env : Env) (c : Container) : List RCall × Bool :=
  if env.containerExists c.name then
    match env.currentImage c.name with
    | some currentImage =>
        ([RCall.containerExistsQ c.name, RCall.inspectImage c.name],
         if currentImage = c.image then false else true)
    | none =>
        ([RCall.containerExistsQ c.name, RCall.inspectImage c.name], true)
  else
    ([RCall.containerExistsQ c.name], false)

/-- `upgrade_container` (main.rs:690-707): pull, stop, remove, recreate, each
step gated by the success of all previous ones via `?`. -/
def upgrade_container (env : Env) (podName : String) (c : Container)
    (dataPath : String) : RunResult Unit :=
  let r1 := pull_image env c.image
  match r1.2 with
  | Except.error e => (r1.1, Except.error e)
  | Except.ok _ =>
    let r2 := stop_container env c.name
    match r2.2 with
    | Except.error e => (r1.1 ++ r2.1, Except.error e)
    | Except.ok _ =>
      let r3 := remove_container env c.name
      match r3.2 with
      | Except.error e => (r1.1 ++ r2.1 ++ r3.1, Except.error e)
      | Except.ok _ =>
        let r4 := create_container_in_pod env podName c dataPath
        (r1.1 ++ r2.1 ++ r3.1 ++ r4.1, r4.2)

/-- The canonical four-step call sequence of a successful container upgrade. -/
def upgradeSeq (podName : String) (c : Container) (dataPath : String) :
    List RCall :=
  [RCall.pullImage c.image, RCall.stopContainer c.name,
   RCall.removeContainer c.name,
   RCall.createContainer podName (container_run_args podName c dataPath)]

/-- The container-creation loop inside `create_pod` (main.rs:429-431):
create each container in order, aborting on the first failure via `?`. -/
def create_containers (env : Env) (podName : String) (dataPath : String) :
    List Container → RunResult Unit
  | [] => ([], Except.ok ())
  | c :: rest =>
    let r := create_container_in_pod env podName c dataPath
    match r.2 with
    | Except.error e => (r.1, Except.error e)
    | Except.ok _ =>
      let rs := create_containers env podName dataPath rest
      (r.1 ++ rs.1, rs.2)

/-- `create_pod` (main.rs:390-434): create the pod with the collected port
set, then create every container in it. -/
def create_pod (env : Env) (pod : Pod) (dataPath : String) : RunResult Unit :=
  if env.createPodOk pod.name then
    let rs := create_containers env pod.name dataPath pod.containers
    (RCall.createPod pod.name (pod_ports pod) :: rs.1, rs.2)
  else
    ([RCall.createPod pod.name (pod_ports pod)],
     Except.error (AppError.createPodFailed pod.name))

/-- One iteration of the loop in `check_and_create_pods` (main.rs:486-493):
query pod existence and create the pod only when it is absent. -/
def process_pod (env : Env) (dataPath : String) (pod : Pod) : RunResult Unit :=
  if env.podExists pod.name then
    ([RCall.podExistsQ pod.name], Except.ok ())
  else
    let r := create_pod env pod dataPath
    (RCall.podExistsQ pod.name :: r.1, r.2)

/-- The pod loop of `check_and_create_pods`, aborting on the first failure. -/
def process_pods (env : Env) (dataPath : String) : List Pod → RunResult Unit
  | [] => ([], Except.ok ())
  | pod :: rest =>
    let r := process_pod env dataPath pod
    match r.2 with
    | Except.error e => (r.1, Except.error e)
    | Except.ok _ =>
      let rs := process_pods env dataPath rest
      (r.1 ++ rs.1, rs.2)

/-- `check_and_create_pods` (main.rs:483-497). -/
def check_and_create_pods (env : Env) (cfg : Config) : RunResult Unit :=
  process_pods env cfg.data_path cfg.pods

/-- The container located by the nested search loop of `upgrade_mode`'s
targeted branch (main.rs:803-819): first matching container scanning pods in
order and, within each pod, containers in order. -/
def findContainer (cfg : Config) (target : String) : Option (Pod × Container) :=
  cfg.pods.findSome? fun pod =>
    (pod.containers.find? fun c => c.name = target).map fun c => (pod, c)

/-- The container loop of `upgrade_mode`'s bulk branch (main.rs:828-837),
over the (podName, container) pairs of the whole document: evaluate
`needs_upgrade`, run `upgrade_container` when needed, abort on the first
failure via `?`. -/
def upgrade_all (env : Env) (dataPath : String) :
    List (String × Container) → RunResult Unit
  | [] => ([], Except.ok ())
  | (podName, c) :: rest =>
    let rn := needs_upgrade env c
    if rn.2 then
      let ru := upgrade_container env podName c dataPath
      match ru.2 with
      | Except.error e => (rn.1 ++ ru.1, Except.error e)
      | Except.ok _ =>
        let rs := upgrade_all env dataPath rest
        (rn.1 ++ ru.1 ++ rs.1, rs.2)
    else
      let rs := upgrade_all env dataPath rest
      (rn.1 ++ rs.1, rs.2)

/-- All (podName, container) pairs of the document, in the iteration order of
the bulk-upgrade loops. -/
def allPodContainers (cfg : Config) : List (String × Container) :=
  (cfg.pods.map fun pod => pod.containers.map fun c => (pod.name, c)).flatten

/-- `upgrade_mode` (main.rs:790-849), after the config is loaded. -/
def upgrade_mode (env : Env) (cfg : Config) (target : Option String) :
    RunResult Unit :=
  match target with
  | some t =>
    match findContainer cfg t with
    | none => ([], Except.error (AppError.containerNotFound t))
    | some (pod, c) =>
      let rn := needs_upgrade env c
      if rn.2 then
        let ru := upgrade_container env pod.name c cfg.data_path
        (rn.1 ++ ru.1, ru.2)
      else
        (rn.1, Except.ok ())
  | none => upgrade_all env cfg.data_path (allPodContainers cfg)

/-- `start_pod` (main.rs:522-545): the pod must be present in the document;
a runtime start failure is propagated as an error. -/
def start_pod (env : Env) (cfg : Config) (podName : String) : RunResult Unit :=
  match cfg.pods.find? fun p => p.name = podName with
  | some _ =>
    ([RCall.startPod podName],
     if env.startPodOk podName then Except.ok ()
     else Except.error (AppError.startPodFailed podName))
  | none => ([], Except.error (AppError.podNotFound podName))

/-- `start_all_pods` (main.rs:547-566): start every pod of the document; a
failed start is only warned about and the loop continues, so the function
always returns `Ok`. -/
def start_all_pods (env : Env) (cfg : Config) : RunResult Unit :=
  (cfg.pods.map fun pod => RCall.startPod pod.name, Except.ok ())

/-- `start_mode` (main.rs:851-869), after the config is loaded. -/
def start_mode (env : Env) (cfg : Config) (podName : Option String) :
    RunResult Unit :=
  match podName with
  | some name => start_pod env cfg name
  | none => start_all_pods env cfg

/-! ## Filesystem model for path materialization -/

/-- A filesystem node: a regular file with its content, or a directory. -/
inductive Node where
  | file (content : String)
  | dir
  deriving DecidableEq

/-- A filesystem state: a finite map from component paths to nodes,
as an association list.  A path is its list of `/`-separated components. -/
abbrev FS := List (List String × Node)

/-- Path lookup. -/
def FS.lookup (fs : FS) (p : List String) : Option Node :=
  match fs with
  | [] => none
  | (q, n) :: rest => if q = p then some n else FS.lookup rest p

/-- Set the node at a path, replacing any existing entry. -/
def FS.set (fs : FS) (p : List String) (n : Node) : FS :=
  match fs with
  | [] => [(p, n)]
  | (q, m) :: rest => if q = p then (p, n) :: rest else (q, m) :: FS.set rest p n

/-- `Path::exists`: the root path (empty component list) always exists. -/
def FS.existsB (fs : FS) (p : List String) : Bool :=
  p.isEmpty || (fs.lookup p).isSome

/-- The component list of a path string: split the characters on `/` and
drop empty segments. -/
def pathComponents (p : String) : List String :=
  ((List.splitOn '/' p.data).filter fun l => l ≠ []).map fun l => ⟨l⟩

/-- `fs::create_dir_all` walked one component at a time: each missing prefix
directory is created; an existing file anywhere along the path is an error. -/
def createDirAllAux (fs : FS) (pre : List String) : List String → Option FS
  | [] => some fs
  | c :: rest =>
    match fs.lookup (pre ++ [c]) with
    | some (Node.file _) => none
    | some Node.dir => createDirAllAux fs (pre ++ [c]) rest
    | none => createDirAllAux (fs.set (pre ++ [c]) Node.dir) (pre ++ [c]) rest

/-- `fs::create_dir_all(p)`. -/
def createDirAll (fs : FS) (p : List String) : Option FS :=
  createDirAllAux fs [] p

/-- `fs::write(p, "")`: requires the parent to be the root or an existing
directory, and fails when `p` itself is a directory. -/
def writeEmptyFile (fs : FS) (p : List String) : Option FS :=
  if fs.lookup p = some Node.dir then none
  else if p.isEmpty then none
  else if p.dropLast.isEmpty || fs.lookup p.dropLast = some Node.dir then
    some (fs.set p (Node.file ""))
  else none

/-- The parent-directory step of the file branch (main.rs:227-231):
`path.parent()` is `None` exactly for the root, and `create_dir_all` runs
only when the parent does not exist. -/
def ensureParentDir (fs : FS) (p : List String) : Option FS :=
  if p.isEmpty then some fs
  else if FS.existsB fs p.dropLast then some fs
  else createDirAll fs p.dropLast

/-- Materialization of one parsed local path (the body of the colon branch
of the mount loop, main.rs:214-248): the full path `dataPath ++ localPath`
is created as a file (parent directory created when absent, empty file
created when absent) or as a directory (created when absent) according to
`isFileMount`. -/
def materializeLocal (dataPath : String) (fs : FS) (localPath : String) :
    Option FS :=
  if isFileMount localPath then
    match ensureParentDir fs (pathComponents (dataPath ++ localPath)) with
    | none => none
    | some fs1 =>
      if FS.existsB fs1 (pathComponents (dataPath ++ localPath)) then some fs1
      else writeEmptyFile fs1 (pathComponents (dataPath ++ localPath))
  else
    if FS.existsB fs (pathComponents (dataPath ++ localPath)) then some fs
    else createDirAll fs (pathComponents (dataPath ++ localPath))

/-- One iteration of the mount loop of `create_mount_paths` (main.rs:211-250):
specs without a colon are skipped. -/
def processMount (dataPath : String) (fs : FS) (m : String) : Option FS :=
  match splitOnce m with
  | none => some fs
  | some (localPath, _) => materializeLocal dataPath fs localPath

/-- The mount specs of the whole document in the iteration order of
`create_mount_paths` (pods, then containers, then mounts). -/
def allMounts (cfg : Config) : List String :=
  ((cfg.pods.map fun pod =>
      (pod.containers.map fun c => c.mounts).flatten)).flatten

/-- The mount loop itself: process each spec in order, stopping at the first
filesystem error (the `?` on each `fs` call). -/
def processMounts (dataPath : String) : FS → List String → Option FS
  | fs, [] => some fs
  | fs, m :: rest =>
    match processMount dataPath fs m with
    | none => none
    | some fs' => processMounts dataPath fs' rest

/-- `create_mount_paths` (main.rs:206-256) acting on the filesystem state. -/
def create_mount_paths (cfg : Config) (fs : FS) : Option FS :=
  processMounts cfg.data_path fs (allMounts cfg)

/-! ## Concrete sample data used by witnesses and counterexamples -/

/-- A sample container. -/
def cWeb : Container :=
  ⟨"web", "nginx:1.25", ["/cfg/web.conf:/etc/nginx/nginx.conf"],
   [("MODE", "prod")], ["8080:80"]⟩

/-- A second sample container. -/
def cDb : Container :=
  ⟨"db", "postgres:16", ["/db:/var/lib/postgresql/data"], [], ["5432:5432"]⟩

/-- A sample pod holding both sample containers. -/
def podA : Pod := ⟨"app", [cWeb, cDb]⟩

/-- A sample configuration document. -/
def cfgA : Config := ⟨"myapp", true, "/srv/app", [podA], none, none, none⟩

/-- An oracle in which every container exists with a stale image and every
image pull fails. -/
def envFailPull : Env :=
  ⟨fun _ => true, fun _ => true, fun _ => some "stale:0", fun _ => false,
   fun _ => true, fun _ => true, fun _ => true, fun _ _ => true, fun _ => true⟩

/-- An oracle in which nothing exists and every call succeeds. -/
def envFresh : Env :=
  ⟨fun _ => false, fun _ => false, fun _ => none, fun _ => true,
   fun _ => true, fun _ => true, fun _ => true, fun _ _ => true, fun _ => true⟩

/-- An oracle in which the container `"web"` exists but its image cannot be
inspected, and every pod start fails. -/
def envNoInspect : Env :=
  ⟨fun _ => true, fun n => n == "web", fun _ => none, fun _ => true,
   fun _ => true, fun _ => true, fun _ => true, fun _ _ => true, fun _ => false⟩

/-! ## C2: the `needs_upgrade` decision -/

/-- C2: `needs_upgrade` is false when the container does not exist; false
when it exists and the observed image equals the configured one; true when
it exists and the observed image differs; and true when it exists but the
image lookup fails. -/
theorem needs_upgrade_cases (env : Env) (c : Container) :
    (env.containerExists c.name = false → (needs_upgrade env c).2 = false) ∧
    (env.containerExists c.name = true →
      env.currentImage c.name = some c.image → (needs_upgrade env c).2 = false) ∧
    (env.containerExists c.name = true → ∀ img, env.currentImage c.name = some img →
      img ≠ c.image → (needs_upgrade env c).2 = true) ∧
    (env.containerExists c.name = true →
      env.currentImage c.name = none → (needs_upgrade env c).2 = true) := by
  unfold needs_upgrade
  refine ⟨fun h1 => ?_, fun h1 h2 => ?_, fun h1 img h2 h3 => ?_, fun h1 h2 => ?_⟩
  · simp [h1]
  · simp [h1, h2]
  · simp [h1, h2]
    exact h3
  · simp [h1, h2]

/-- Witness for C2 at a concrete oracle and container: `"web"` exists but its
image lookup fails, so an upgrade is required. -/
theorem needs_upgrade_cases_witness : (needs_upgrade envNoInspect cWeb).2 = true :=
  (needs_upgrade_cases envNoInspect cWeb).2.2.2 (by decide) rfl

/-! ## C3: the strict ordering of the upgrade action -/

/-- C3: `upgrade_container` performs exactly the prefix of
pull → stop → remove → recreate up to and including the first failing step,
in that order, succeeding exactly when all four steps succeed; a later step
is never attempted after an earlier failure. -/
theorem upgrade_container_sequence (env : Env) (podName : String)
    (c : Container) (dataPath : String) :
    upgrade_container env podName c dataPath =
      if env.pullOk c.image = false then
        ((upgradeSeq podName c dataPath).take 1,
         Except.error (AppError.pullFailed c.image))
      else if env.stopContainerOk c.name = false then
        ((upgradeSeq podName c dataPath).take 2,
         Except.error (AppError.stopFailed c.name))
      else if env.removeOk c.name = false then
        ((upgradeSeq podName c dataPath).take 3,
         Except.error (AppError.removeFailed c.name))
      else if env.createContainerOk podName c.name = false then
        (upgradeSeq podName c dataPath,
         Except.error (AppError.createContainerFailed podName c.name))
      else
        (upgradeSeq podName c dataPath, Except.ok ()) := by
  unfold upgrade_container pull_image stop_container remove_container
    create_container_in_pod upgradeSeq
  cases hp : env.pullOk c.image <;>
    cases hs : env.stopContainerOk c.name <;>
      cases hr : env.removeOk c.name <;>
        cases hc : env.createContainerOk podName c.name <;>
          simp [hp, hs, hr, hc]

/-! ## C4: port aggregation for pod creation -/

/-- Folding `insert` over a list of ports collects exactly the initial set
plus the list's elements. -/
theorem mem_foldl_insert (l : List String) (init : Finset String) (p : String) :
    p ∈ l.foldl (fun s2 q => insert q s2) init ↔ p ∈ init ∨ p ∈ l := by
  induction l generalizing init with
  | nil => simp
  | cons a t ih =>
    rw [List.foldl_cons, ih]
    simp [Finset.mem_insert]
    tauto

/-- Membership in the nested port fold of `pod_ports`. -/
theorem mem_foldl_ports (cs : List Container) (init : Finset String) (p : String) :
    p ∈ cs.foldl (fun s c => c.ports.foldl (fun s2 q => insert q s2) s) init ↔
      p ∈ init ∨ ∃ c ∈ cs, p ∈ c.ports := by
  induction cs generalizing init with
  | nil => simp
  | cons c t ih =>
    rw [List.foldl_cons, ih]
    simp [mem_foldl_insert]
    tauto

/-- C4: the port set handed to pod creation is exactly the deduplicated union
of all port specs of the pod's containers — it is the head `createPod` call of
`create_pod`, it equals the `toFinset` of all declared ports, and it is
invariant under any reordering of the declarations. -/
theorem pod_creation_ports (pod : Pod) :
    (∀ env dataPath,
      (create_pod env pod dataPath).1.head? =
        some (RCall.createPod pod.name (pod_ports pod))) ∧
    pod_ports pod = ((pod.containers.map Container.ports).flatten).toFinset ∧
    (∀ pod2 : Pod,
      ((pod2.containers.map Container.ports).flatten).Perm
        ((pod.containers.map Container.ports).flatten) →
      pod_ports pod2 = pod_ports pod) := by
  have hfin : ∀ q : Pod,
      pod_ports q = ((q.containers.map Container.ports).flatten).toFinset := by
    intro q
    ext p
    rw [pod_ports, mem_foldl_ports]
    simp [List.mem_flatten]
  refine ⟨?_, hfin pod, ?_⟩
  · intro env dataPath
    unfold create_pod
    cases h : env.createPodOk pod.name <;> simp [h]
  · intro pod2 hperm
    rw [hfin pod, hfin pod2]
    exact List.toFinset_eq_of_perm _ _ hperm

/-- Witness for C4: the sample pod with its containers listed in the opposite
order yields the same port set. -/
theorem pod_creation_ports_witness :
    pod_ports ⟨"app", [cDb, cWeb]⟩ = pod_ports podA :=
  (pod_creation_ports podA).2.2 ⟨"app", [cDb, cWeb]⟩ (by decide)

/-! ## C8: targeted upgrade of a name absent from the document -/

/-- C8: `upgrade <name>` for a name that is no container of the document
fails with the not-found error and performs no runtime call at all. -/
theorem upgrade_target_not_found (env : Env) (cfg : Config) (t : String)
    (h : ∀ pod ∈ cfg.pods, ∀ c ∈ pod.containers, c.name ≠ t) :
    upgrade_mode env cfg (some t) =
      ([], Except.error (AppError.containerNotFound t)) := by
  have hfind : findContainer cfg t = none := by
    unfold findContainer
    rw [List.findSome?_eq_none_iff]
    intro pod hpod
    have : (pod.containers.find? fun c => c.name = t) = none := by
      rw [List.find?_eq_none]
      intro c hc
      simp [h pod hpod c hc]
    rw [this]
    rfl
  simp [upgrade_mode, hfind]

/-- Witness for C8 at a concrete document and target name. -/
theorem upgrade_target_not_found_witness :
    upgrade_mode envFresh cfgA (some "ghost") =
      ([], Except.error (AppError.containerNotFound "ghost")) :=
  upgrade_target_not_found envFresh cfgA "ghost" (by decide)

/-! ## C9: start mode -/

/-- C9: `start` with no name attempts every pod of the document and always
returns `Ok`; `start <name>` fails with the not-found error when the name is
absent from the document, and propagates a runtime start failure as an error
when the pod is present. -/
theorem start_mode_spec (env : Env) (cfg : Config) :
    start_mode env cfg none =
      (cfg.pods.map fun pod => RCall.startPod pod.name, Except.ok ()) ∧
    (∀ name, (∀ pod ∈ cfg.pods, pod.name ≠ name) →
      start_mode env cfg (some name) =
        ([], Except.error (AppError.podNotFound name))) ∧
    (∀ name, (∃ pod ∈ cfg.pods, pod.name = name) → env.startPodOk name = false →
      start_mode env cfg (some name) =
        ([RCall.startPod name], Except.error (AppError.startPodFailed name))) := by
  refine ⟨rfl, ?_, ?_⟩
  · intro name hname
    have hfind : (cfg.pods.find? fun p => p.name = name) = none := by
      rw [List.find?_eq_none]
      intro p hp
      simp [hname p hp]
    simp [start_mode, start_pod, hfind]
  · intro name hex hfail
    have hsome : ((cfg.pods.find? fun p => p.name = name)).isSome := by
      rw [List.find?_isSome]
      obtain ⟨p, hp, he⟩ := hex
      exact ⟨p, hp, by simp [he]⟩
    obtain ⟨p, hp⟩ := Option.isSome_iff_exists.mp hsome
    simp [start_mode, start_pod, hp, hfail]

/-- Witness for C9 at a concrete document: starting the absent pod `"ghost"`
is a not-found error, and starting `"app"` when the runtime start fails
propagates the failure. -/
theorem start_mode_spec_witness :
    start_mode envNoInspect cfgA (some "ghost") =
      ([], Except.error (AppError.podNotFound "ghost")) ∧
    start_mode envNoInspect cfgA (some "app") =
      ([RCall.startPod "app"], Except.error (AppError.startPodFailed "app")) :=
  ⟨(start_mode_spec envNoInspect cfgA).2.1 "ghost" (by decide),
   (start_mode_spec envNoInspect cfgA).2.2 "app" ⟨podA, by decide, rfl⟩ rfl⟩

deriving instance DecidableEq for Except

/-! ## C7: convergent creation -/

/-- Unfolding equation for `process_pods` on a cons cell. -/
theorem process_pods_cons (env : Env) (d : String) (pod : Pod) (t : List Pod) :
    process_pods env d (pod :: t) =
      match (process_pod env d pod).2 with
      | Except.error e => ((process_pod env d pod).1, Except.error e)
      | Except.ok _ =>
        ((process_pod env d pod).1 ++ (process_pods env d t).1,
         (process_pods env d t).2) := rfl

/-- Every call made by the container-creation loop is a `createContainer`
for the enclosing pod. -/
theorem create_containers_calls (env : Env) (pn d : String) (cs : List Container) :
    ∀ call ∈ (create_containers env pn d cs).1,
      ∃ args, call = RCall.createContainer pn args := by
  induction cs with
  | nil => simp [create_containers]
  | cons c t ih =>
    intro call hcall
    unfold create_containers create_container_in_pod at hcall
    by_cases hc : env.createContainerOk pn c.name
    · simp only [hc, if_true, if_pos] at hcall
      simp only [List.cons_append, List.nil_append, List.mem_cons] at hcall
      rcases hcall with h | h
      · exact ⟨_, h⟩
      · exact ih call h
    · simp only [hc] at hcall
      simp only [Bool.false_eq_true, if_false, List.mem_singleton] at hcall
      exact ⟨_, hcall⟩

/-- When every container creation succeeds, the loop creates each container
of the list, in order, and succeeds. -/
theorem create_containers_ok (env : Env) (pn d : String) (cs : List Container)
    (h : ∀ c ∈ cs, env.createContainerOk pn c.name = true) :
    create_containers env pn d cs =
      (cs.map fun c => RCall.createContainer pn (container_run_args pn c d),
       Except.ok ()) := by
  induction cs with
  | nil => rfl
  | cons c t ih =>
    have hc : env.createContainerOk pn c.name = true := h c (by simp)
    have ht : ∀ x ∈ t, env.createContainerOk pn x.name = true := by
      intro x hx
      exact h x (by simp [hx])
    unfold create_containers create_container_in_pod
    rw [ih ht]
    simp [hc]

/-- Every call made by `create_pod` is either the pod-creation call with the
collected port set or a container creation inside that pod. -/
theorem create_pod_calls (env : Env) (pod : Pod) (d : String) :
    ∀ call ∈ (create_pod env pod d).1,
      call = RCall.createPod pod.name (pod_ports pod) ∨
        ∃ args, call = RCall.createContainer pod.name args := by
  intro call hcall
  unfold create_pod at hcall
  by_cases hp : env.createPodOk pod.name
  · simp only [hp, if_true, if_pos, List.mem_cons] at hcall
    rcases hcall with h | h
    · exact Or.inl h
    · exact Or.inr (create_containers_calls env pod.name d pod.containers call h)
  · simp only [hp, Bool.false_eq_true, if_false, List.mem_singleton] at hcall
    exact Or.inl hcall

/-- Every pod-creation or container-creation call made while processing one
pod targets a pod observed to be absent. -/
theorem process_pod_gated (env : Env) (d : String) (pod : Pod) :
    ∀ call ∈ (process_pod env d pod).1,
      (∀ name ports, call = RCall.createPod name ports →
        env.podExists name = false) ∧
      (∀ pn args, call = RCall.createContainer pn args →
        env.podExists pn = false) := by
  intro call hcall
  unfold process_pod at hcall
  by_cases hp : env.podExists pod.name
  · simp only [hp, if_true, if_pos, List.mem_singleton] at hcall
    subst hcall
    exact ⟨(fun n ports hne => nomatch hne), (fun pn args hne => nomatch hne)⟩
  · have hpf : env.podExists pod.name = false := by simpa using hp
    simp only [hpf, Bool.false_eq_true, if_false, List.mem_cons] at hcall
    rcases hcall with h | h
    · subst h
      exact ⟨(fun n ports hne => nomatch hne), (fun pn args hne => nomatch hne)⟩
    · rcases create_pod_calls env pod d call h with hcp | ⟨args, hcc⟩
      · subst hcp
        refine ⟨?_, ?_⟩
        · intro n ports hne
          cases hne
          exact hpf
        · intro pn args hne
          cases hne
      · subst hcc
        refine ⟨?_, ?_⟩
        · intro n ports hne
          cases hne
        · intro pn args2 hne
          cases hne
          exact hpf

/-- Pod existence gates creation across the whole pod loop. -/
theorem process_pods_gated (env : Env) (d : String) (pods : List Pod) :
    ∀ call ∈ (process_pods env d pods).1,
      (∀ name ports, call = RCall.createPod name ports →
        env.podExists name = false) ∧
      (∀ pn args, call = RCall.createContainer pn args →
        env.podExists pn = false) := by
  induction pods with
  | nil => simp [process_pods]
  | cons pod t ih =>
    intro call hcall
    rw [process_pods_cons] at hcall
    rcases hr : (process_pod env d pod).2 with e | u
    · rw [hr] at hcall
      simp only [List.mem_append] at hcall
      exact process_pod_gated env d pod call hcall
    · rw [hr] at hcall
      simp only [List.mem_append] at hcall
      rcases hcall with h | h
      · exact process_pod_gated env d pod call h
      · exact ih call h

/-- When creation succeeds everywhere it is attempted, the pod loop queries
each pod and, for each absent pod, creates the pod and then every one of its
containers, in order. -/
theorem process_pods_ok (env : Env) (d : String) (pods : List Pod)
    (h : ∀ pod ∈ pods, env.podExists pod.name = false →
      env.createPodOk pod.name = true ∧
      ∀ c ∈ pod.containers, env.createContainerOk pod.name c.name = true) :
    process_pods env d pods =
      ((pods.map fun pod =>
          if env.podExists pod.name then [RCall.podExistsQ pod.name]
          else
            RCall.podExistsQ pod.name ::
              RCall.createPod pod.name (pod_ports pod) ::
                pod.containers.map fun c =>
                  RCall.createContainer pod.name
                    (container_run_args pod.name c d)).flatten,
       Except.ok ()) := by
  induction pods with
  | nil => rfl
  | cons pod t ih =>
    have hokt : ∀ p ∈ t, env.podExists p.name = false →
        env.createPodOk p.name = true ∧
        ∀ c ∈ p.containers, env.createContainerOk p.name c.name = true :=
      fun p hp => h p (List.mem_cons_of_mem _ hp)
    rw [process_pods_cons]
    by_cases hp : env.podExists pod.name
    · have hpp : process_pod env d pod =
          ([RCall.podExistsQ pod.name], Except.ok ()) := by
        unfold process_pod
        simp [hp]
      rw [hpp, ih hokt]
      simp [hp]
    · have hpf : env.podExists pod.name = false := by simpa using hp
      obtain ⟨hcp, hcc⟩ := h pod (List.mem_cons_self pod t) hpf
      have hpp : process_pod env d pod =
          (RCall.podExistsQ pod.name ::
            RCall.createPod pod.name (pod_ports pod) ::
              (pod.containers.map fun c =>
                RCall.createContainer pod.name (container_run_args pod.name c d)),
           Except.ok ()) := by
        unfold process_pod create_pod
        rw [create_containers_ok env pod.name d pod.containers hcc]
        simp [hpf, hcp]
      rw [hpp, ih hokt]
      simp [hpf]

/-- C7: convergent creation.  First, pod existence alone gates creation:
every pod-creation or container-creation call in the trace of
`check_and_create_pods` is for a pod observed to be absent (so an existing
pod gets neither call, for itself nor for any of its containers, regardless
of its container definitions).  Second, when creation succeeds, each absent
pod is created first and then every one of its containers, while existing
pods receive only the existence query. -/
theorem check_and_create_pods_convergent (env : Env) (cfg : Config) :
    (∀ call ∈ (check_and_create_pods env cfg).1,
      (∀ name ports, call = RCall.createPod name ports →
        env.podExists name = false) ∧
      (∀ pn args, call = RCall.createContainer pn args →
        env.podExists pn = false)) ∧
    ((∀ pod ∈ cfg.pods, env.podExists pod.name = false →
        env.createPodOk pod.name = true ∧
        ∀ c ∈ pod.containers, env.createContainerOk pod.name c.name = true) →
      check_and_create_pods env cfg =
        ((cfg.pods.map fun pod =>
            if env.podExists pod.name then [RCall.podExistsQ pod.name]
            else
              RCall.podExistsQ pod.name ::
                RCall.createPod pod.name (pod_ports pod) ::
                  pod.containers.map fun c =>
                    RCall.createContainer pod.name
                      (container_run_args pod.name c cfg.data_path)).flatten,
         Except.ok ())) :=
  ⟨process_pods_gated env cfg.data_path cfg.pods,
   fun hok => process_pods_ok env cfg.data_path cfg.pods hok⟩

/-- Witness for C7 on the sample document against a runtime where nothing
exists yet: the pod is created, then both containers, in order. -/
theorem check_and_create_pods_convergent_witness :
    check_and_create_pods envFresh cfgA =
      ([RCall.podExistsQ "app",
        RCall.createPod "app" (pod_ports podA),
        RCall.createContainer "app" (container_run_args "app" cWeb "/srv/app"),
        RCall.createContainer "app" (container_run_args "app" cDb "/srv/app")],
       Except.ok ()) := by
  have h := (check_and_create_pods_convergent envFresh cfgA).2
    (fun pod hpod hex => ⟨rfl, fun c hc => rfl⟩)
  rw [h]
  rfl

/-! ## C1: failure isolation in a bulk upgrade -/

/-- Unfolding equation for `upgrade_all` on a cons cell. -/
theorem upgrade_all_cons (env : Env) (d pn : String) (c : Container)
    (rest : List (String × Container)) :
    upgrade_all env d ((pn, c) :: rest) =
      if (needs_upgrade env c).2 then
        match (upgrade_container env pn c d).2 with
        | Except.error e =>
          ((needs_upgrade env c).1 ++ (upgrade_container env pn c d).1,
           Except.error e)
        | Except.ok _ =>
          ((needs_upgrade env c).1 ++ (upgrade_container env pn c d).1 ++
            (upgrade_all env d rest).1,
           (upgrade_all env d rest).2)
      else
        ((needs_upgrade env c).1 ++ (upgrade_all env d rest).1,
         (upgrade_all env d rest).2) := rfl

/-- `upgrade_all` over a concatenation runs the first list to completion and
continues with the second only when the first succeeded. -/
theorem upgrade_all_append (env : Env) (d : String)
    (l1 l2 : List (String × Container)) :
    upgrade_all env d (l1 ++ l2) =
      match (upgrade_all env d l1).2 with
      | Except.error e => ((upgrade_all env d l1).1, Except.error e)
      | Except.ok _ =>
        ((upgrade_all env d l1).1 ++ (upgrade_all env d l2).1,
         (upgrade_all env d l2).2) := by
  induction l1 with
  | nil => simp [upgrade_all]
  | cons hd t ih =>
    obtain ⟨pn, c⟩ := hd
    rw [List.cons_append, upgrade_all_cons, upgrade_all_cons]
    by_cases hn : (needs_upgrade env c).2
    · rw [if_pos hn, if_pos hn]
      rcases hu : (upgrade_container env pn c d).2 with e | u
      · rfl
      · rw [ih]
        rcases hs : (upgrade_all env d t).2 with e2 | u2
        · rfl
        · simp [List.append_assoc]
    · rw [if_neg hn, if_neg hn, ih]
      rcases hs : (upgrade_all env d t).2 with e2 | u2
      · rfl
      · simp [List.append_assoc]

/-- Amended C1: in a bulk upgrade, the first failing step of any container's
upgrade aborts the whole invocation with that error — the containers after
the failing one are never evaluated (the trace ends with the failing
container's calls). -/
theorem bulk_upgrade_aborts_run (env : Env) (cfg : Config)
    (l1 l2 : List (String × Container)) (pn : String) (c : Container)
    (t1 : List RCall) (e : AppError)
    (hsplit : allPodContainers cfg = l1 ++ (pn, c) :: l2)
    (h1 : upgrade_all env cfg.data_path l1 = (t1, Except.ok ()))
    (hneeds : (needs_upgrade env c).2 = true)
    (hfail : (upgrade_container env pn c cfg.data_path).2 = Except.error e) :
    upgrade_mode env cfg none =
      (t1 ++ (needs_upgrade env c).1 ++
        (upgrade_container env pn c cfg.data_path).1,
       Except.error e) := by
  have hone : upgrade_all env cfg.data_path ((pn, c) :: l2) =
      ((needs_upgrade env c).1 ++ (upgrade_container env pn c cfg.data_path).1,
       Except.error e) := by
    rw [upgrade_all_cons, if_pos hneeds, hfail]
  show upgrade_all env cfg.data_path (allPodContainers cfg) = _
  rw [hsplit, upgrade_all_append, h1]
  simp [hone, List.append_assoc]

/-- Witness for the amended C1: on the sample document with every pull
failing, the bulk upgrade aborts at the first container's pull. -/
theorem bulk_upgrade_aborts_run_witness :
    upgrade_mode envFailPull cfgA none =
      ([] ++ (needs_upgrade envFailPull cWeb).1 ++
        (upgrade_container envFailPull "app" cWeb "/srv/app").1,
       Except.error (AppError.pullFailed "nginx:1.25")) :=
  bulk_upgrade_aborts_run envFailPull cfgA [] [("app", cDb)] "app" cWeb []
    (AppError.pullFailed "nginx:1.25") (by decide) rfl (by decide) (by decide)

/-- Counterexample to C1 as stated: with two containers in the invocation
and the first one's pull failing, the whole bulk upgrade returns that error
and the second container (`"db"`) is never evaluated — its existence is
never even queried. -/
theorem bulk_upgrade_not_isolated :
    (upgrade_mode envFailPull cfgA none).2 =
      Except.error (AppError.pullFailed "nginx:1.25") ∧
    RCall.containerExistsQ "db" ∉ (upgrade_mode envFailPull cfgA none).1 := by
  decide

/-! ## C5 and C10: mount spec handling -/

/-- A character list without a colon has no split. -/
theorem splitOnceAux_of_not_mem (l : List Char) (h : ':' ∉ l) :
    splitOnceAux l = none := by
  induction l with
  | nil => rfl
  | cons a t ih =>
    simp only [List.mem_cons, not_or] at h
    unfold splitOnceAux
    rw [if_neg (fun he => h.1 he.symm), ih h.2]

/-- Splitting at the first colon of `l1 ++ ':' :: l2` when `l1` is
colon-free. -/
theorem splitOnceAux_append (l1 l2 : List Char) (h : ':' ∉ l1) :
    splitOnceAux (l1 ++ ':' :: l2) = some (l1, l2) := by
  induction l1 with
  | nil => simp [splitOnceAux]
  | cons a t ih =>
    simp only [List.mem_cons, not_or] at h
    rw [List.cons_append]
    unfold splitOnceAux
    rw [if_neg (fun he => h.1 he.symm), ih h.2]

/-- `split_once(':')` on a spec of the form `local ++ ":" ++ container` with
a colon-free local part. -/
theorem splitOnce_concat (lo cont : String) (h : ':' ∉ lo.data) :
    splitOnce (lo ++ ":" ++ cont) = some (lo, cont) := by
  unfold splitOnce
  have hd : (lo ++ ":" ++ cont).data = lo.data ++ ':' :: cont.data := by
    simp [String.data_append]
  rw [hd, splitOnceAux_append lo.data cont.data h]

/-- `split_once(':')` on a colon-free spec is `none`. -/
theorem splitOnce_none (m : String) (h : ':' ∉ m.data) : splitOnce m = none := by
  unfold splitOnce
  rw [splitOnceAux_of_not_mem m.data h]

/-- C5: for a mount spec `local:container` (colon-free local part), the
materialized host side is the plain concatenation `dataRoot ++ local`; the
file classification holds exactly when the local part contains a dot and
ends with one of the six extensions; and — independently of that
classification — the mount argument handed to the runtime is
`dataRoot ++ local ++ ":" ++ container` verbatim. -/
theorem mount_resolution_spec (d lo cont : String) (h : ':' ∉ lo.data) :
    materializedPath d (lo ++ ":" ++ cont) = some (d ++ lo) ∧
    mountArg d (lo ++ ":" ++ cont) = d ++ lo ++ ":" ++ cont ∧
    (isFileMount lo = true ↔
      ('.' ∈ lo.data ∧
        (strEndsWith lo ".conf" = true ∨ strEndsWith lo ".log" = true ∨
         strEndsWith lo ".txt" = true ∨ strEndsWith lo ".json" = true ∨
         strEndsWith lo ".yaml" = true ∨ strEndsWith lo ".yml" = true))) := by
  have hs := splitOnce_concat lo cont h
  refine ⟨?_, ?_, ?_⟩
  · rw [materializedPath, hs]
  · rw [mountArg, hs]
  · simp [isFileMount, Bool.and_eq_true, Bool.or_eq_true]
    tauto

/-- Witness for C5 at the spec's own example:
dataRoot `"/srv/app"`, mount `"/cfg/app.conf:/etc/app.conf"`. -/
theorem mount_resolution_spec_witness :
    materializedPath "/srv/app" ("/cfg/app.conf" ++ ":" ++ "/etc/app.conf") =
      some ("/srv/app" ++ "/cfg/app.conf") ∧
    mountArg "/srv/app" ("/cfg/app.conf" ++ ":" ++ "/etc/app.conf") =
      "/srv/app" ++ "/cfg/app.conf" ++ ":" ++ "/etc/app.conf" ∧
    isFileMount "/cfg/app.conf" = true :=
  have h := mount_resolution_spec "/srv/app" "/cfg/app.conf" "/etc/app.conf"
    (by decide)
  ⟨h.1, h.2.1, h.2.2.mpr (by decide)⟩

/-- C10: a mount spec without a colon is skipped entirely by path
materialization (the filesystem state is returned unchanged and no error is
raised), while the volume argument for container creation is the spec
verbatim, without the data-root prefix. -/
theorem mount_without_colon (d : String) (fs : FS) (m : String)
    (h : ':' ∉ m.data) :
    processMount d fs m = some fs ∧ mountArg d m = m := by
  have hs := splitOnce_none m h
  constructor
  · rw [processMount, hs]
  · rw [mountArg, hs]

/-- Witness for C10 at a concrete colon-free mount spec. -/
theorem mount_without_colon_witness :
    processMount "/srv/app" [] "dbdata" = some [] ∧
    mountArg "/srv/app" "dbdata" = "dbdata" :=
  mount_without_colon "/srv/app" [] "dbdata" (by decide)

/-! ## C6: idempotence of path materialization -/

/-- `b` keeps every entry of `a` unchanged (the materializer only ever adds
entries, so its steps all preserve in this sense). -/
def Preserves (a b : FS) : Prop :=
  ∀ p n, a.lookup p = some n → b.lookup p = some n

theorem Preserves.rfl (a : FS) : Preserves a a := fun _ _ hn => hn

theorem Preserves.comp {a b c : FS} (h1 : Preserves a b) (h2 : Preserves b c) :
    Preserves a c := fun p n hn => h2 p n (h1 p n hn)

theorem lookup_set_self (fs : FS) (p : List String) (n : Node) :
    (fs.set p n).lookup p = some n := by
  induction fs with
  | nil => simp [FS.set, FS.lookup]
  | cons e rest ih =>
    obtain ⟨q, m⟩ := e
    unfold FS.set
    by_cases h : q = p
    · subst h
      simp [FS.lookup]
    · rw [if_neg h]
      unfold FS.lookup
      rw [if_neg h]
      exact ih

theorem lookup_set_ne (fs : FS) (p q : List String) (n : Node) (h : q ≠ p) :
    (fs.set p n).lookup q = fs.lookup q := by
  have hpq : p ≠ q := fun he => h he.symm
  induction fs with
  | nil =>
    simp only [FS.set, FS.lookup, if_neg hpq]
  | cons e rest ih =>
    obtain ⟨r, m⟩ := e
    by_cases hr : r = p
    · subst hr
      simp only [FS.set, if_pos rfl, FS.lookup, if_neg hpq]
    · simp only [FS.set, if_neg hr, FS.lookup]
      by_cases hq : r = q
      · rw [if_pos hq, if_pos hq]
      · rw [if_neg hq, if_neg hq]
        exact ih

/-- Setting an absent path preserves every present entry. -/
theorem preserves_set_of_none (fs : FS) (p : List String) (n : Node)
    (h : fs.lookup p = none) : Preserves fs (fs.set p n) := by
  intro q m hm
  have hqp : q ≠ p := fun he => by
    rw [he, h] at hm
    cases hm
  rw [lookup_set_ne fs p q n hqp]
  exact hm

theorem existsB_of_lookup {fs : FS} {p : List String} {n : Node}
    (h : fs.lookup p = some n) : fs.existsB p = true := by
  unfold FS.existsB
  rw [h]
  simp

theorem existsB_mono {a b : FS} (h : Preserves a b) {p : List String}
    (hp : a.existsB p = true) : b.existsB p = true := by
  unfold FS.existsB at hp ⊢
  rcases he : p.isEmpty with _ | _
  · rw [he] at hp
    simp only [Bool.false_or] at hp
    obtain ⟨n, hn⟩ := Option.isSome_iff_exists.mp hp
    rw [h p n hn]
    simp
  · simp [he]

/-- A failed existence check means: nonempty path, no entry. -/
theorem existsB_eq_false {fs : FS} {p : List String}
    (h : fs.existsB p = false) : p.isEmpty = false ∧ fs.lookup p = none := by
  unfold FS.existsB at h
  rcases Bool.or_eq_false_iff.mp h with ⟨h1, h2⟩
  exact ⟨h1, Option.not_isSome_iff_eq_none.mp (by rw [h2]; simp)⟩

/-- `createDirAllAux` never disturbs an existing entry. -/
theorem createDirAllAux_preserves :
    ∀ (l : List String) (fs : FS) (pre : List String) (fs' : FS),
      createDirAllAux fs pre l = some fs' → Preserves fs fs' := by
  intro l
  induction l with
  | nil =>
    intro fs pre fs' h
    cases h
    exact Preserves.rfl fs
  | cons c rest ih =>
    intro fs pre fs' h
    unfold createDirAllAux at h
    rcases hl : fs.lookup (pre ++ [c]) with _ | n
    · rw [hl] at h
      exact (preserves_set_of_none fs (pre ++ [c]) Node.dir hl).comp (ih _ _ _ h)
    · rw [hl] at h
      cases n with
      | file content => cases h
      | dir => exact ih _ _ _ h

/-- On success over a nonempty component list, the final path is a
directory in the resulting state. -/
theorem createDirAllAux_last :
    ∀ (l : List String) (fs : FS) (pre : List String) (fs' : FS),
      createDirAllAux fs pre l = some fs' → l ≠ [] →
      fs'.lookup (pre ++ l) = some Node.dir := by
  intro l
  induction l with
  | nil =>
    intro fs pre fs' _ hne
    exact absurd rfl hne
  | cons c rest ih =>
    intro fs pre fs' h _
    unfold createDirAllAux at h
    rcases hl : fs.lookup (pre ++ [c]) with _ | n
    · rw [hl] at h
      rcases rest with _ | ⟨r, rs⟩
      · cases h
        exact lookup_set_self fs (pre ++ [c]) Node.dir
      · have hstep : pre ++ c :: r :: rs = (pre ++ [c]) ++ (r :: rs) := by simp
        rw [hstep]
        exact ih _ _ _ h (by simp)
    · rw [hl] at h
      cases n with
      | file content => cases h
      | dir =>
        rcases rest with _ | ⟨r, rs⟩
        · cases h
          exact hl
        · have hstep : pre ++ c :: r :: rs = (pre ++ [c]) ++ (r :: rs) := by simp
          rw [hstep]
          exact ih _ _ _ h (by simp)

/-- `createDirAll` preserves entries. -/
theorem createDirAll_preserves {fs : FS} {p : List String} {fs' : FS}
    (h : createDirAll fs p = some fs') : Preserves fs fs' :=
  createDirAllAux_preserves p fs [] fs' h

/-- `createDirAll` of a nonempty path makes it a directory. -/
theorem createDirAll_last {fs : FS} {p : List String} {fs' : FS}
    (h : createDirAll fs p = some fs') (hne : p ≠ []) :
    fs'.lookup p = some Node.dir := by
  have := createDirAllAux_last p fs [] fs' h hne
  rwa [List.nil_append] at this

/-- Writing an empty file at an absent path preserves entries and records
the new empty file. -/
theorem writeEmptyFile_spec {fs : FS} {p : List String} {fs' : FS}
    (hnone : fs.lookup p = none) (h : writeEmptyFile fs p = some fs') :
    Preserves fs fs' ∧ fs'.lookup p = some (Node.file "") := by
  unfold writeEmptyFile at h
  split_ifs at h with h0 h1 h2 <;> cases h <;>
    exact ⟨preserves_set_of_none fs p (Node.file "") hnone,
      lookup_set_self fs p (Node.file "")⟩

/-- The parent step preserves entries, and on success the parent of a
nonempty path exists afterwards. -/
theorem ensureParentDir_spec {fs : FS} {p : List String} {fs1 : FS}
    (h : ensureParentDir fs p = some fs1) :
    Preserves fs fs1 ∧
      (p.isEmpty = false → FS.existsB fs1 p.dropLast = true) := by
  unfold ensureParentDir at h
  by_cases hpe : p.isEmpty = true
  · rw [if_pos hpe] at h
    cases h
    refine ⟨Preserves.rfl fs, fun hpf => ?_⟩
    rw [hpe] at hpf
    cases hpf
  · rw [if_neg hpe] at h
    by_cases hpar : FS.existsB fs p.dropLast = true
    · rw [if_pos hpar] at h
      cases h
      exact ⟨Preserves.rfl fs, fun _ => hpar⟩
    · rw [if_neg hpar] at h
      have hfalse : FS.existsB fs p.dropLast = false := by simpa using hpar
      obtain ⟨hne, _⟩ := existsB_eq_false hfalse
      have hnil : p.dropLast ≠ [] := by
        intro he
        rw [he] at hne
        simp at hne
      have hdir := createDirAll_last h hnil
      exact ⟨createDirAll_preserves h, fun _ => existsB_of_lookup hdir⟩

/-- The parent step is a no-op success when the path is the root or its
parent already exists. -/
theorem ensureParentDir_stable {fs2 : FS} {p : List String}
    (hpar : p.isEmpty = true ∨ FS.existsB fs2 p.dropLast = true) :
    ensureParentDir fs2 p = some fs2 := by
  unfold ensureParentDir
  rcases hpar with hpe | hex
  · rw [if_pos hpe]
  · by_cases hpe : p.isEmpty = true
    · rw [if_pos hpe]
    · rw [if_neg hpe, if_pos hex]

/-- A successful materialization of one local path preserves every existing
entry, and any state extending its result lets the same materialization
succeed as a pure no-op. -/
theorem materializeLocal_spec (d : String) (fs : FS) (lo : String) (fs' : FS)
    (h : materializeLocal d fs lo = some fs') :
    Preserves fs fs' ∧
      ∀ fs2, Preserves fs' fs2 → materializeLocal d fs2 lo = some fs2 := by
  unfold materializeLocal at h
  by_cases hf : isFileMount lo = true
  · rw [if_pos hf] at h
    rcases hp1 : ensureParentDir fs (pathComponents (d ++ lo)) with _ | fs1
    · rw [hp1] at h
      cases h
    · rw [hp1] at h
      replace h : (if FS.existsB fs1 (pathComponents (d ++ lo)) then some fs1
          else writeEmptyFile fs1 (pathComponents (d ++ lo))) = some fs' := h
      obtain ⟨hpres1, hpar1⟩ := ensureParentDir_spec hp1
      by_cases hex : FS.existsB fs1 (pathComponents (d ++ lo)) = true
      · rw [if_pos hex] at h
        cases h
        refine ⟨hpres1, fun fs2 hp2 => ?_⟩
        unfold materializeLocal
        rw [if_pos hf]
        have hparOr : (pathComponents (d ++ lo)).isEmpty = true ∨
            FS.existsB fs2 (pathComponents (d ++ lo)).dropLast = true := by
          rcases hpe : (pathComponents (d ++ lo)).isEmpty with _ | _
          · exact Or.inr (existsB_mono hp2 (hpar1 hpe))
          · exact Or.inl rfl
        rw [ensureParentDir_stable hparOr]
        show (if FS.existsB fs2 (pathComponents (d ++ lo)) then some fs2
            else writeEmptyFile fs2 (pathComponents (d ++ lo))) = some fs2
        rw [if_pos (existsB_mono hp2 hex)]
      · rw [if_neg hex] at h
        have hexf : FS.existsB fs1 (pathComponents (d ++ lo)) = false := by
          simpa using hex
        obtain ⟨hpemp, hlook⟩ := existsB_eq_false hexf
        obtain ⟨hwp, hwl⟩ := writeEmptyFile_spec hlook h
        refine ⟨hpres1.comp hwp, fun fs2 hp2 => ?_⟩
        unfold materializeLocal
        rw [if_pos hf]
        have hparOr : (pathComponents (d ++ lo)).isEmpty = true ∨
            FS.existsB fs2 (pathComponents (d ++ lo)).dropLast = true :=
          Or.inr (existsB_mono hp2 (existsB_mono hwp (hpar1 hpemp)))
        rw [ensureParentDir_stable hparOr]
        show (if FS.existsB fs2 (pathComponents (d ++ lo)) then some fs2
            else writeEmptyFile fs2 (pathComponents (d ++ lo))) = some fs2
        rw [if_pos (existsB_mono hp2 (existsB_of_lookup hwl))]
  · rw [if_neg hf] at h
    by_cases hex : FS.existsB fs (pathComponents (d ++ lo)) = true
    · rw [if_pos hex] at h
      cases h
      refine ⟨Preserves.rfl fs, fun fs2 hp2 => ?_⟩
      unfold materializeLocal
      rw [if_neg hf, if_pos (existsB_mono hp2 hex)]
    · rw [if_neg hex] at h
      have hexf : FS.existsB fs (pathComponents (d ++ lo)) = false := by
        simpa using hex
      obtain ⟨hpemp, _⟩ := existsB_eq_false hexf
      have hne : pathComponents (d ++ lo) ≠ [] := by
        intro he
        rw [he] at hpemp
        simp at hpemp
      have hdir := createDirAll_last h hne
      refine ⟨createDirAll_preserves h, fun fs2 hp2 => ?_⟩
      unfold materializeLocal
      rw [if_neg hf, if_pos (existsB_mono hp2 (existsB_of_lookup hdir))]

/-- Lift of `materializeLocal_spec` to one mount spec. -/
theorem processMount_spec (d : String) (fs : FS) (m : String) (fs' : FS)
    (h : processMount d fs m = some fs') :
    Preserves fs fs' ∧
      ∀ fs2, Preserves fs' fs2 → processMount d fs2 m = some fs2 := by
  unfold processMount at h
  rcases hsp : splitOnce m with _ | ⟨lo, rest⟩
  · rw [hsp] at h
    cases h
    refine ⟨Preserves.rfl fs, fun fs2 _ => ?_⟩
    unfold processMount
    rw [hsp]
  · rw [hsp] at h
    replace h : materializeLocal d fs lo = some fs' := h
    obtain ⟨h1, h2⟩ := materializeLocal_spec d fs lo fs' h
    refine ⟨h1, fun fs2 hp2 => ?_⟩
    unfold processMount
    rw [hsp]
    exact h2 fs2 hp2

/-- The whole mount loop preserves entries, and running it again from its
own result is a no-op success. -/
theorem processMounts_spec (d : String) (l : List String) :
    ∀ (s s1 : FS), processMounts d s l = some s1 →
      Preserves s s1 ∧
        ∀ s2, Preserves s1 s2 → processMounts d s2 l = some s2 := by
  induction l with
  | nil =>
    intro s s1 h
    cases h
    exact ⟨Preserves.rfl s, fun s2 _ => rfl⟩
  | cons m rest ih =>
    intro s s1 h
    unfold processMounts at h
    rcases hm : processMount d s m with _ | s'
    · rw [hm] at h
      cases h
    · rw [hm] at h
      obtain ⟨hp1, hst1⟩ := processMount_spec d s m s' hm
      obtain ⟨hp2, hst2⟩ := ih s' s1 h
      refine ⟨hp1.comp hp2, fun s2 hs2 => ?_⟩
      unfold processMounts
      rw [hst1 s2 (hp2.comp hs2)]
      exact hst2 s2 hs2

/-- C6: path materialization is idempotent.  If the first run succeeds and
produces state `s1`, then a second run on `s1` succeeds and returns `s1`
unchanged; moreover the first run never disturbs an existing file (its
content is intact, so nothing is truncated) or an existing directory. -/
theorem create_mount_paths_idempotent (cfg : Config) (s s1 : FS)
    (h : create_mount_paths cfg s = some s1) :
    create_mount_paths cfg s1 = some s1 ∧
    (∀ p c, s.lookup p = some (Node.file c) → s1.lookup p = some (Node.file c)) ∧
    (∀ p, s.lookup p = some Node.dir → s1.lookup p = some Node.dir) := by
  obtain ⟨hpres, hstab⟩ := processMounts_spec cfg.data_path (allMounts cfg) s s1 h
  exact ⟨hstab s1 (Preserves.rfl s1),
    fun p c hc => hpres p _ hc, fun p hd => hpres p _ hd⟩

/-- The filesystem state produced by materializing the sample document's
mounts on an empty filesystem. -/
def fsOutA : FS :=
  [(["srv"], Node.dir),
   (["srv", "app"], Node.dir),
   (["srv", "app", "cfg"], Node.dir),
   (["srv", "app", "cfg", "web.conf"], Node.file ""),
   (["srv", "app", "db"], Node.dir)]

/-- Witness for C6: the second run of path materialization on the state the
first run produced from an empty filesystem is a no-op success. -/
theorem create_mount_paths_idempotent_witness :
    create_mount_paths cfgA fsOutA = some fsOutA :=
  (create_mount_paths_idempotent cfgA [] fsOutA (by decide)).1

end PodmanDeploy
